import Mathlib

/-!
Verification of the compAS half-edge mesh core: the split operator
(`src/brg/datastructures/mesh/algorithms/split.py`), the triangle-mesh
`add_face` check (`src/brg/datastructures/mesh/tri.py`), and the remeshing
drivers (`src/brg/datastructures/mesh/algorithms/tri/topology.py` and
`src/compas/datastructures/mesh/algorithms/optimisation.py`).

Python dicts are modelled as association lists with Python's dict semantics
(assignment updates in place or appends; deletion removes the binding).
Python floats are modelled as rationals. `Except.error` models a raised
Python exception. Parts of the repository that the sources call but that are
not under src (the base `Mesh` store in mesh.py, the tri-mesh operator
modules) are modelled from the spec where unavoidable; each such definition
carries a doc comment starting with "Modelled from the spec".
-/

/-! ## Python dicts as association lists -/

/-- Lookup in an association-list model of a Python dict (`d[k]`,
returning `none` where Python raises `KeyError`). -/
def dget {K A : Type} [DecidableEq K] : List (K × A) → K → Option A
  | [], _ => none
  | p :: rest, k => if p.1 = k then some p.2 else dget rest k

/-- Python dict assignment `d[k] = a`: update the binding in place,
or append a new binding at the end. -/
def dset {K A : Type} [DecidableEq K] : List (K × A) → K → A → List (K × A)
  | [], k, a => [(k, a)]
  | p :: rest, k, a => if p.1 = k then (k, a) :: rest else p :: dset rest k a

/-- Python `del d[k]`: remove the binding for `k`. -/
def ddel {K A : Type} [DecidableEq K] : List (K × A) → K → List (K × A)
  | [], _ => []
  | p :: rest, k => if p.1 = k then ddel rest k else p :: ddel rest k

/-! ## Vertex attribute merging in `split_edge` (split.py, lines 52-64) -/

/-- A Python attribute value as far as the merge loop distinguishes them:
a number, a list of numbers, or anything non-mergeable (modelled as `null`,
also the result Python `None`). -/
inductive AttrVal where
  | num (q : ℚ)
  | vec (l : List ℚ)
  | null
deriving DecidableEq, Repr

/-- The body of the merge loop of `split_edge` for one attribute name:
`0.5 * (u_attr[name] + v_attr[name])` if both are numbers; on any exception,
element-wise averaging over `range(len(u_attr[name]))` (an index error when
`v`'s list is shorter yields `None`); on any further exception `None`.
Note `list + list` concatenates and `0.5 * list` raises, so the first branch
only succeeds for numbers. -/
def mergeVal : AttrVal → Option AttrVal → AttrVal
  | .num a, some (.num b) => .num ((1/2) * (a + b))
  | .vec a, some (.vec b) =>
      if a.length ≤ b.length then
        .vec ((List.range a.length).map (fun i => (1/2) * (a.getD i 0 + b.getD i 0)))
      else .null
  | _, _ => .null

/-- The merge loop of `split_edge`: iterate over the names present on `u`
and merge each with `v`'s value for the same name (if any). -/
def w_attrOf (u_attr v_attr : List (String × AttrVal)) : List (String × AttrVal) :=
  u_attr.map (fun p => (p.1, mergeVal p.2 (dget v_attr p.1)))

/-! ## The swap pass valence errors (topology.py lines 124-139,
optimisation.py lines 186-212) -/

/-- `current_error` of the swap pass: total absolute deviation from valence 6
of the four (bias-adjusted) valences around the edge. -/
def currentError (a b c d : ℤ) : ℤ := |a - 6| + |b - 6| + |c - 6| + |d - 6|

/-- `flipped_error` of the swap pass, as written in the code. -/
def flippedError (a b c d : ℤ) : ℤ := |a - 7| + |b - 7| + |c - 5| + |d - 5|

/-- The skip test of the swap pass: `if current_error <= flipped_error: continue`. -/
def swapSkips (a b c d : ℤ) : Bool := currentError a b c d ≤ flippedError a b c d

/-- Total absolute deviation of four valences from 6, following the spec's
words; the spec's post-swap configuration is `(a-1, b-1, c+1, d+1)`. -/
def specDeviation (a b c d : ℤ) : ℤ := |a - 6| + |b - 6| + |c - 6| + |d - 6|

/-! ## The remeshing driver's phase counter (topology.py lines 68-147,
optimisation.py lines 131-221) -/

/-- Which pass an outer iteration runs: the drivers run the split pass at
`count == 1`, the collapse pass at `count == 2`, the swap pass at
`count == 3`, and otherwise only reset the counter. -/
inductive DriverPass where
  | split
  | collapse
  | swap
  | nopass
deriving DecidableEq, Repr

/-- The branch taken by the `if count == 1 / elif == 2 / elif == 3 / else`
chain for a given value of `count`. -/
def passOfCount (c : ℕ) : DriverPass :=
  if c = 1 then DriverPass.split
  else if c = 2 then DriverPass.collapse
  else if c = 3 then DriverPass.swap
  else DriverPass.nopass

/-- The counter update of one outer iteration: `count += 1`, then the `else`
branch resets it to 0 when none of the three passes ran. -/
def nextCount (c : ℕ) : ℕ :=
  if c + 1 = 1 ∨ c + 1 = 2 ∨ c + 1 = 3 then c + 1 else 0

/-- The value of `count` on entry to outer iteration `k` (it starts at 0). -/
def countBefore : ℕ → ℕ
  | 0 => 0
  | k + 1 => nextCount (countBefore k)

/-- The pass run by outer iteration `k` (the driver increments `count`
before testing it). -/
def passAt (k : ℕ) : DriverPass := passOfCount (countBefore k + 1)

/-! ## The triangle-mesh add_face check (tri.py lines 19-38) -/

/-- The preprocessing of `TriMesh.add_face`: if the last vertex equals the
first it is deleted from the list. -/
def trimFace : List ℕ → List ℕ
  | [] => []
  | x :: xs => if (x :: xs).getLastD x = x then (x :: xs).dropLast else x :: xs

/-- `TriMesh.add_face` (tri.py): raises `MeshError` when, after dropping a
last vertex equal to the first, the sequence does not have length exactly 3;
otherwise it delegates to the base `Mesh.add_face` (modelled as success
returning the processed sequence). On an empty list `vertices[-1]` raises an
index error. -/
def TriMesh.add_face (vertices : List ℕ) : Except String (List ℕ) :=
  match vertices with
  | [] => Except.error "IndexError"
  | x :: xs =>
    let vs := trimFace (x :: xs)
    if vs.length ≠ 3 then Except.error "MeshError: The face has too many vertices"
    else Except.ok vs

/-- The number of distinct vertices of the cyclic sequence, a last vertex
equal to the first being ignored, following the claim's wording. -/
def distinctVertexCount (l : List ℕ) : ℕ := (trimFace l).dedup.length

/-! ## The half-edge mesh store and the split operator (split.py) -/

/-- Vertex attribute dicts. -/
abbrev Attrs := List (String × AttrVal)

/-- One row `mesh.halfedge[u]`: neighbour to face key or `None` sentinel. -/
abbrev HalfedgeRow := List (ℕ × Option ℕ)

/-- `mesh.halfedge`: dict of dicts. -/
abbrev HalfedgeDict := List (ℕ × HalfedgeRow)

/-- One row `mesh.face[f]`: the cyclic successor dict of the face
(vertex to next vertex, as used by `mesh.face[f1][v]` in the swap pass). -/
abbrev FaceRow := List (ℕ × ℕ)

/-- `mesh.face`: face key to cyclic successor dict. -/
abbrev FaceDict := List (ℕ × FaceRow)

/-- The half-edge mesh store: `mesh.vertex`, `mesh.halfedge`, `mesh.face`. -/
structure Mesh where
  vertex : List (ℕ × Attrs)
  halfedge : HalfedgeDict
  face : FaceDict
deriving DecidableEq, Repr

/-- `mesh.halfedge[u][v]`. -/
def hget (h : HalfedgeDict) (u v : ℕ) : Option (Option ℕ) :=
  (dget h u).bind (fun row => dget row v)

/-- `mesh.halfedge[u][v] = f`: the outer row must exist (else Python raises
`KeyError`); the inner assignment may create the key. -/
def hset (h : HalfedgeDict) (u v : ℕ) (f : Option ℕ) : Option HalfedgeDict :=
  (dget h u).map (fun row => dset h u (dset row v f))

/-- `del mesh.halfedge[u][v]`: both keys must exist. -/
def hdel (h : HalfedgeDict) (u v : ℕ) : Option HalfedgeDict :=
  (dget h u).bind (fun row => (dget row v).map (fun _ => dset h u (ddel row v)))

/-- `mesh.face[f][x]`. -/
def fget (fc : FaceDict) (f x : ℕ) : Option ℕ :=
  (dget fc f).bind (fun row => dget row x)

/-- The face-cycle update of one side of `split_edge`: if the face key is
not the `None` sentinel, set `mesh.face[fkey][a] = b` and
`mesh.face[fkey][b] = c` (the row must exist). -/
def faceSplitUpdate (fc : FaceDict) (fkey : Option ℕ) (a b c : ℕ) :
    Option FaceDict :=
  match fkey with
  | none => some fc
  | some f => (dget fc f).map (fun row => dset fc f (dset (dset row a b) b c))

/-- Modelled from the spec: `vertex_coordinates` of the Mesh Store (mesh.py,
not in src) reads the x, y, z attribute entries. -/
def coordNum (attrs : Attrs) (nm : String) : ℚ :=
  match dget attrs nm with
  | some (AttrVal.num q) => q
  | _ => 0

/-- Modelled from the spec: a vertex's (x, y, z) position. -/
def coordsOf (attrs : Attrs) : ℚ × ℚ × ℚ :=
  (coordNum attrs "x", coordNum attrs "y", coordNum attrs "z")

/-- Modelled from the spec: the geometry primitive consumed by `split_edge`
("line interpolation at parameter t"; the `Line` class is not in src):
`Line(sp, ep).scale(t)` ends at the affine interpolation of `sp` and `ep`. -/
def lineEnd (sp ep : ℚ × ℚ × ℚ) (t : ℚ) : ℚ × ℚ × ℚ :=
  (sp.1 + t * (ep.1 - sp.1),
   sp.2.1 + t * (ep.2.1 - sp.2.1),
   sp.2.2 + t * (ep.2.2 - sp.2.2))

/-- Setting the x, y, z entries of an attribute dict to a position. -/
def setCoords (attrs : Attrs) (p : ℚ × ℚ × ℚ) : Attrs :=
  dset (dset (dset attrs "x" (AttrVal.num p.1)) "y" (AttrVal.num p.2.1))
    "z" (AttrVal.num p.2.2)

/-- Every vertex key mentioned anywhere in the mesh. -/
def vertexMentions (m : Mesh) : List ℕ :=
  m.vertex.map Prod.fst
    ++ m.halfedge.foldr (fun p acc => p.1 :: (p.2.map Prod.fst ++ acc)) []
    ++ m.face.foldr (fun p acc => p.2.map Prod.fst ++ (p.2.map Prod.snd ++ acc)) []

/-- Modelled from the spec: `add_vertex` of the Mesh Store (mesh.py, not in
src) returns a fresh unique key; we allocate one greater than every key
mentioned in the mesh. -/
def freshKey (m : Mesh) : ℕ := (vertexMentions m).foldl max 0 + 1

/-- Modelled from the spec: `add_vertex(attr_dict, x, y, z)` inserts a new
vertex with the given attribute mapping and initialises its empty half-edge
adjacency row. -/
def add_vertex (m : Mesh) (w : ℕ) (attrs : Attrs) : Mesh :=
  { vertex := dset m.vertex w attrs
    halfedge := dset m.halfedge w []
    face := m.face }

/-- Modelled from the spec: `vertex_degree(key)` is the count of distinct
neighbours, i.e. the number of keys of the vertex's half-edge row. -/
def vertex_degree (m : Mesh) (x : ℕ) : ℕ :=
  (((dget m.halfedge x).getD []).map Prod.fst).dedup.length

/-- `split_edge(mesh, u, v, t=0.5, allow_boundary=False)` from split.py,
translated statement by statement. `Except.error` models a raised exception;
the result carries the returned vertex key (`none` for the boundary no-op)
and the mesh after the call (Python mutates it in place). -/
def split_edge (m : Mesh) (u v : ℕ) (t : ℚ) (allow_boundary : Bool) :
    Except String (Option ℕ × Mesh) :=
  if t ≤ 0 then Except.error "t should be greater than 0.0."
  else if 1 ≤ t then Except.error "t should be smaller than 1.0."
  else
    match hget m.halfedge u v, hget m.halfedge v u with
    | none, _ => Except.error "KeyError"
    | some _, none => Except.error "KeyError"
    | some fkey_uv, some fkey_vu =>
      if allow_boundary = false ∧ (fkey_uv = none ∨ fkey_vu = none) then
        Except.ok (none, m)
      else
        match dget m.vertex u, dget m.vertex v with
        | none, _ => Except.error "KeyError"
        | some _, none => Except.error "KeyError"
        | some u_attr, some v_attr =>
          let pos := lineEnd (coordsOf u_attr) (coordsOf v_attr) t
          let w := freshKey m
          let m1 := add_vertex m w (setCoords (w_attrOf u_attr v_attr) pos)
          match hset m1.halfedge u w fkey_uv with
          | none => Except.error "KeyError"
          | some h1 =>
          match hset h1 w v fkey_uv with
          | none => Except.error "KeyError"
          | some h2 =>
          match hdel h2 u v with
          | none => Except.error "KeyError"
          | some h3 =>
          match faceSplitUpdate m1.face fkey_uv u w v with
          | none => Except.error "KeyError"
          | some fc1 =>
          match hset h3 v w fkey_vu with
          | none => Except.error "KeyError"
          | some h4 =>
          match hset h4 w u fkey_vu with
          | none => Except.error "KeyError"
          | some h5 =>
          match hdel h5 v u with
          | none => Except.error "KeyError"
          | some h6 =>
          match faceSplitUpdate fc1 fkey_vu v w u with
          | none => Except.error "KeyError"
          | some fc2 =>
            Except.ok (some w, { vertex := m1.vertex, halfedge := h6, face := fc2 })

/-- A concrete mesh for witnesses and counterexamples: two triangles
(0, 1, 2) and (1, 0, 3) sharing the interior edge (0, 1); all four vertices
lie on the boundary. -/
def M0 : Mesh :=
  { vertex := [(0, []), (1, []), (2, []), (3, [])]
    halfedge :=
      [ (0, [(1, some 0), (3, some 1), (2, none)])
      , (1, [(2, some 0), (0, some 1), (3, none)])
      , (2, [(0, some 0), (1, none)])
      , (3, [(1, some 1), (0, none)]) ]
    face :=
      [ (0, [(0, 1), (1, 2), (2, 0)])
      , (1, [(1, 0), (0, 3), (3, 1)]) ] }

/-! ## The swap pass step (topology.py lines 117-143) -/

/-- The bias-adjusted valence used by the swap pass: `mesh.vertex_degree(x)`,
plus 2 when the vertex is in the driver's `boundary` set. -/
def biasedValency (boundary : List ℕ) (m : Mesh) (x : ℕ) : ℤ :=
  (vertex_degree m x : ℤ) + (if x ∈ boundary then 2 else 0)

/-- The state threaded through a swap pass: the `visited` set, the mesh, and
(for specification purposes) the list of edges swapped so far. -/
structure SwapState where
  visited : List ℕ
  mesh : Mesh
  swapped : List (ℕ × ℕ)

/-- One loop-body iteration of the swap pass of `remesh` (topology.py lines
117-143): skip edges touching a visited endpoint; skip boundary edges (a
sentinel face on either side); read the opposite vertices from the face
cycles; compute the bias-adjusted valences and the two errors; swap exactly
when `current_error > flipped_error`. `swapOp` stands for the tri-mesh
`swap_edge` the driver calls (its module is not in src); `boundary` is the
set the driver computed before the loop. -/
def swapStep (boundary : List ℕ) (swapOp : Mesh → ℕ → ℕ → Mesh)
    (st : SwapState) (e : ℕ × ℕ) : Except String SwapState :=
  if e.1 ∈ st.visited ∨ e.2 ∈ st.visited then Except.ok st
  else
    match hget st.mesh.halfedge e.1 e.2, hget st.mesh.halfedge e.2 e.1 with
    | none, _ => Except.error "KeyError"
    | some _, none => Except.error "KeyError"
    | some f1o, some f2o =>
      match f1o, f2o with
      | none, _ => Except.ok st
      | some _, none => Except.ok st
      | some f1, some f2 =>
        match fget st.mesh.face f1 e.2, fget st.mesh.face f2 e.1 with
        | none, _ => Except.error "KeyError"
        | some _, none => Except.error "KeyError"
        | some v1, some v2 =>
          if currentError (biasedValency boundary st.mesh e.1)
                (biasedValency boundary st.mesh e.2)
                (biasedValency boundary st.mesh v1)
                (biasedValency boundary st.mesh v2) ≤
              flippedError (biasedValency boundary st.mesh e.1)
                (biasedValency boundary st.mesh e.2)
                (biasedValency boundary st.mesh v1)
                (biasedValency boundary st.mesh v2) then Except.ok st
          else
            Except.ok { visited := e.1 :: e.2 :: st.visited,
                        mesh := swapOp st.mesh e.1 e.2,
                        swapped := st.swapped ++ [(e.1, e.2)] }

/-! ## The split pass loop and error propagation (topology.py lines 76-90) -/

/-- The state threaded through a split pass: `visited` and the mesh. -/
structure PassState where
  visited : List ℕ
  mesh : Mesh

/-- One loop-body iteration of the split pass of `remesh` (topology.py lines
76-90): skip edges touching a visited endpoint; skip edges not longer than
`lmax + dlmax`; otherwise call the split operator and mark both endpoints
visited. `op` stands for the tri-mesh `split_edge` the driver calls (its
module is not in src) and may raise; `lengthOf` stands for
`mesh.edge_length`. There is no try/except in the driver, so an operator
error aborts the iteration. -/
def splitPassStep (op : Mesh → ℕ → ℕ → Except String Mesh)
    (lengthOf : Mesh → ℕ → ℕ → ℚ) (lmaxd : ℚ) (st : PassState) (e : ℕ × ℕ) :
    Except String PassState :=
  if e.1 ∈ st.visited ∨ e.2 ∈ st.visited then Except.ok st
  else if lengthOf st.mesh e.1 e.2 ≤ lmaxd then Except.ok st
  else
    match op st.mesh e.1 e.2 with
    | Except.error msg => Except.error msg
    | Except.ok m' => Except.ok { visited := e.1 :: e.2 :: st.visited, mesh := m' }

/-- The split pass: the `for u, v in mesh.edges()` loop, with an operator
error propagating out of the loop at once (there is no try/except). -/
def splitPass (op : Mesh → ℕ → ℕ → Except String Mesh)
    (lengthOf : Mesh → ℕ → ℕ → ℚ) (lmaxd : ℚ) :
    PassState → List (ℕ × ℕ) → Except String PassState
  | st, [] => Except.ok st
  | st, e :: rest =>
    match splitPassStep op lengthOf lmaxd st e with
    | Except.error msg => Except.error msg
    | Except.ok st' => splitPass op lengthOf lmaxd st' rest

/-- An operator that raises on edge (0, 1) and succeeds elsewhere. -/
def failingOp : Mesh → ℕ → ℕ → Except String Mesh :=
  fun m a b => if a = 0 ∧ b = 1 then Except.error "TopologyError" else Except.ok m

/-- An edge-length function making every edge longer than any threshold used
here, so no edge is skipped for its length. -/
def bigLen : Mesh → ℕ → ℕ → ℚ := fun _ _ _ => 10

/-- An operator that always raises. -/
def alwaysFailOp : Mesh → ℕ → ℕ → Except String Mesh :=
  fun _ _ _ => Except.error "TopologyError"

/-! ## The length deviation band schedule (topology.py lines 46-62,
optimisation.py lines 103-126) -/

/-- `lmin = (1 - tol) * (4.0 / 5.0) * target`. -/
def remesh_lmin (target tol : ℚ) : ℚ := (1 - tol) * (4 / 5) * target

/-- `lmax = (1 + tol) * (4.0 / 3.0) * target`. -/
def remesh_lmax (target tol : ℚ) : ℚ := (1 + tol) * (4 / 3) * target

/-- The deviation band `(dlmin, dlmax)` computed by `remesh` (brg
topology.py) at outer iteration `k`: `fac = target_start / target` from the
caller-supplied `target_start`, and while `k <= kmax_approach` the band is
`scale_val = fac * (1 - k / kmax_approach)` times `(lmin, lmax)`; 0 after. -/
def remesh_band (target target_start tol kmax_approach : ℚ) (k : ℕ) : ℚ × ℚ :=
  let lmin := remesh_lmin target tol
  let lmax := remesh_lmax target tol
  let fac := target_start / target
  if (k : ℚ) ≤ kmax_approach then
    let scale_val := fac * (1 - (k : ℚ) / kmax_approach)
    (lmin * scale_val, lmax * scale_val)
  else (0, 0)

/-- Python `max` of a list (`none` on an empty list, where Python raises). -/
def pyMax : List ℚ → Option ℚ
  | [] => none
  | x :: xs => some (xs.foldl max x)

/-- The deviation band computed by `optimise_trimesh_topology` (compas
optimisation.py) at outer iteration `k`: the caller-supplied `target_start`
parameter is overwritten with the maximum current edge length before `fac`
is computed. -/
def optimise_band (edge_len : List ℚ) (target target_start tol kmax_start : ℚ)
    (k : ℕ) : Option (ℚ × ℚ) :=
  match pyMax edge_len with
  | none => none
  | some target_start =>
    let lmin := remesh_lmin target tol
    let lmax := remesh_lmax target tol
    let fac := target_start / target
    if (k : ℚ) ≤ kmax_start then
      let scale_val := fac * (1 - (k : ℚ) / kmax_start)
      some (lmin * scale_val, lmax * scale_val)
    else some (0, 0)

/-- The deviation band exactly as the claim words it: `dlmin = lmin * fac *
(1 - k/kmax_start)` and `dlmax = lmax * fac * (1 - k/kmax_start)` with
`fac = target_start / target` for `k <= kmax_start`, and 0 afterwards. -/
def claim_band (target target_start tol kmax_start : ℚ) (k : ℕ) : ℚ × ℚ :=
  if (k : ℚ) ≤ kmax_start then
    (remesh_lmin target tol * (target_start / target) * (1 - (k : ℚ) / kmax_start),
     remesh_lmax target tol * (target_start / target) * (1 - (k : ℚ) / kmax_start))
  else (0, 0)

/-! ## Dictionary lemmas -/

theorem dget_dset {K A : Type} [DecidableEq K] (d : List (K × A)) (k : K) (a : A)
    (k' : K) : dget (dset d k a) k' = if k = k' then some a else dget d k' := by
  induction d with
  | nil => simp [dget, dset]
  | cons p rest ih =>
    obtain ⟨pk, pa⟩ := p
    by_cases h : pk = k
    · subst h
      by_cases h' : pk = k'
      · subst h'
        simp [dget, dset]
      · simp [dget, dset, h']
    · by_cases h' : pk = k'
      · subst h'
        have hk' : ¬ k = pk := fun e => h e.symm
        simp [dget, dset, h, hk']
      · simp [dget, dset, h, h', ih]

theorem dget_ddel {K A : Type} [DecidableEq K] (d : List (K × A)) (k k' : K) :
    dget (ddel d k) k' = if k = k' then none else dget d k' := by
  induction d with
  | nil => simp [dget, ddel]
  | cons p rest ih =>
    obtain ⟨pk, pa⟩ := p
    by_cases h : pk = k
    · subst h
      by_cases h' : pk = k'
      · subst h'
        simp [dget, ddel, ih]
      · simp [dget, ddel, ih, h']
    · by_cases h' : pk = k'
      · subst h'
        have hk' : ¬ k = pk := fun e => h e.symm
        simp [dget, ddel, h, hk']
      · simp [dget, ddel, h, h', ih]

theorem length_dset {K A : Type} [DecidableEq K] (d : List (K × A)) (k : K) (a : A) :
    (dset d k a).length =
      if (dget d k).isSome then d.length else d.length + 1 := by
  induction d with
  | nil => simp [dget, dset]
  | cons p rest ih =>
    obtain ⟨pk, pa⟩ := p
    by_cases h : pk = k
    · subst h
      simp [dget, dset]
    · simp only [dset, dget, if_neg h, List.length_cons, ih]
      by_cases hs : (dget rest k).isSome = true <;> simp [hs]

theorem dget_mem {K A : Type} [DecidableEq K] {d : List (K × A)} {k : K} {a : A}
    (h : dget d k = some a) : (k, a) ∈ d := by
  induction d with
  | nil => simp [dget] at h
  | cons p rest ih =>
    obtain ⟨pk, pa⟩ := p
    by_cases hp : pk = k
    · subst hp
      simp [dget] at h
      subst h
      exact List.mem_cons_self _ _
    · simp [dget, hp] at h
      exact List.mem_cons_of_mem _ (ih h)

/-! ## Freshness of the allocated vertex key -/

theorem le_foldl_max (l : List ℕ) (a : ℕ) : a ≤ l.foldl max a := by
  induction l generalizing a with
  | nil => exact le_refl a
  | cons x xs ih => exact le_trans (le_max_left a x) (ih (max a x))

theorem mem_le_foldl_max {l : List ℕ} {x : ℕ} (a : ℕ) (h : x ∈ l) :
    x ≤ l.foldl max a := by
  induction l generalizing a with
  | nil => cases h
  | cons y ys ih =>
    rcases List.mem_cons.mp h with rfl | hm
    · exact le_trans (le_max_right a x) (le_foldl_max ys (max a x))
    · exact ih (max a y) hm

theorem lt_freshKey {m : Mesh} {x : ℕ} (h : x ∈ vertexMentions m) :
    x < freshKey m := Nat.lt_succ_of_le (mem_le_foldl_max 0 h)

theorem mem_he_foldr_outer {l : HalfedgeDict} {u : ℕ} {row : HalfedgeRow}
    (h : (u, row) ∈ l) :
    u ∈ l.foldr (fun p acc => p.1 :: (p.2.map Prod.fst ++ acc)) [] := by
  induction l with
  | nil => cases h
  | cons p rest ih =>
    rcases List.mem_cons.mp h with rfl | hm
    · exact List.mem_cons_self _ _
    · simp only [List.foldr_cons, List.mem_cons, List.mem_append]
      exact Or.inr (Or.inr (by simpa using ih hm))

theorem mem_he_foldr_inner {l : HalfedgeDict} {u v : ℕ} {row : HalfedgeRow}
    (h : (u, row) ∈ l) (hv : v ∈ row.map Prod.fst) :
    v ∈ l.foldr (fun p acc => p.1 :: (p.2.map Prod.fst ++ acc)) [] := by
  induction l with
  | nil => cases h
  | cons p rest ih =>
    rcases List.mem_cons.mp h with rfl | hm
    · simp only [List.foldr_cons, List.mem_cons, List.mem_append]
      exact Or.inr (Or.inl hv)
    · simp only [List.foldr_cons, List.mem_cons, List.mem_append]
      exact Or.inr (Or.inr (by simpa using ih hm))

theorem mem_face_foldr {l : FaceDict} {f x : ℕ} {row : FaceRow}
    (h : (f, row) ∈ l) (hx : x ∈ row.map Prod.fst ∨ x ∈ row.map Prod.snd) :
    x ∈ l.foldr (fun p acc => p.2.map Prod.fst ++ (p.2.map Prod.snd ++ acc)) [] := by
  induction l with
  | nil => cases h
  | cons p rest ih =>
    rcases List.mem_cons.mp h with rfl | hm
    · simp only [List.foldr_cons, List.mem_append]
      rcases hx with hx | hx
      · exact Or.inl hx
      · exact Or.inr (Or.inl hx)
    · simp only [List.foldr_cons, List.mem_append]
      exact Or.inr (Or.inr (by simpa using ih hm))

theorem mentions_halfedge_outer {m : Mesh} {u : ℕ} {row : HalfedgeRow}
    (h : dget m.halfedge u = some row) : u ∈ vertexMentions m := by
  simp only [vertexMentions, List.mem_append]
  exact Or.inl (Or.inr (mem_he_foldr_outer (dget_mem h)))

theorem mentions_halfedge_inner {m : Mesh} {u v : ℕ} {row : HalfedgeRow}
    {f : Option ℕ} (h : dget m.halfedge u = some row) (hv : dget row v = some f) :
    v ∈ vertexMentions m := by
  simp only [vertexMentions, List.mem_append]
  refine Or.inl (Or.inr (mem_he_foldr_inner (dget_mem h) ?_))
  exact List.mem_map.mpr ⟨(v, f), dget_mem hv, rfl⟩

theorem mentions_face {m : Mesh} {f x y : ℕ} {row : FaceRow}
    (h : dget m.face f = some row) (hx : dget row x = some y) :
    x ∈ vertexMentions m ∧ y ∈ vertexMentions m := by
  constructor <;> simp only [vertexMentions, List.mem_append] <;>
    refine Or.inr (mem_face_foldr (dget_mem h) ?_)
  · exact Or.inl (List.mem_map.mpr ⟨(x, y), dget_mem hx, rfl⟩)
  · exact Or.inr (List.mem_map.mpr ⟨(x, y), dget_mem hx, rfl⟩)

/-! ## Step lemmas for the split rewiring -/

theorem hset_eq {h : HalfedgeDict} {u : ℕ} {row : HalfedgeRow}
    (hr : dget h u = some row) (v : ℕ) (f : Option ℕ) :
    hset h u v f = some (dset h u (dset row v f)) := by
  simp [hset, hr]

theorem hdel_eq {h : HalfedgeDict} {u v : ℕ} {row : HalfedgeRow} {f : Option ℕ}
    (hr : dget h u = some row) (hv : dget row v = some f) :
    hdel h u v = some (dset h u (ddel row v)) := by
  simp [hdel, hr, hv]

theorem faceSplitUpdate_some {fc : FaceDict} {f : ℕ} {row : FaceRow}
    (hr : dget fc f = some row) (a b c : ℕ) :
    faceSplitUpdate fc (some f) a b c = some (dset fc f (dset (dset row a b) b c)) := by
  simp [faceSplitUpdate, hr]

theorem faceSplitUpdate_none (fc : FaceDict) (a b c : ℕ) :
    faceSplitUpdate fc none a b c = some fc := rfl

theorem faceSplitUpdate_dget_isSome {fc fc' : FaceDict} {fk : Option ℕ}
    {a b c : ℕ} (h : faceSplitUpdate fc fk a b c = some fc') (f : ℕ) :
    (dget fc' f).isSome = (dget fc f).isSome := by
  cases fk with
  | none =>
    simp [faceSplitUpdate] at h
    rw [← h]
  | some g =>
    simp only [faceSplitUpdate, Option.map_eq_some'] at h
    obtain ⟨row, hrow, rfl⟩ := h
    rw [dget_dset]
    by_cases hgf : g = f
    · subst hgf
      simp [hrow]
    · simp [hgf]

/-- The complete run of a successful `split_edge`: under the preconditions
of a performed split, the call returns the fresh key and the mesh with the
rewired half-edge dict (written out explicitly) and the updated faces. -/
theorem split_edge_run {m : Mesh} {u v : ℕ} {t : ℚ} {ab : Bool}
    {f1o f2o : Option ℕ} {row_u row_v : HalfedgeRow} {u_attr v_attr : Attrs}
    (ht0 : 0 < t) (ht1 : t < 1)
    (hru : dget m.halfedge u = some row_u)
    (hrv : dget m.halfedge v = some row_v)
    (huv : dget row_u v = some f1o)
    (hvu : dget row_v u = some f2o)
    (hguard : ¬ (ab = false ∧ (f1o = none ∨ f2o = none)))
    (hau : dget m.vertex u = some u_attr)
    (hav : dget m.vertex v = some v_attr)
    (hne : ¬ (u = v))
    (hf1 : ∀ f, f1o = some f → (dget m.face f).isSome = true)
    (hf2 : ∀ f, f2o = some f → (dget m.face f).isSome = true) :
    ∃ fc1 fc2 : FaceDict,
      faceSplitUpdate m.face f1o u (freshKey m) v = some fc1 ∧
      faceSplitUpdate fc1 f2o v (freshKey m) u = some fc2 ∧
      split_edge m u v t ab = Except.ok (some (freshKey m),
        { vertex := dset m.vertex (freshKey m)
            (setCoords (w_attrOf u_attr v_attr)
              (lineEnd (coordsOf u_attr) (coordsOf v_attr) t)),
          halfedge :=
            dset (dset (dset (dset (dset (dset (dset m.halfedge (freshKey m) [])
                u (dset row_u (freshKey m) f1o))
                (freshKey m) (dset ([] : HalfedgeRow) v f1o))
                u (ddel (dset row_u (freshKey m) f1o) v))
                v (dset row_v (freshKey m) f2o))
                (freshKey m) (dset (dset ([] : HalfedgeRow) v f1o) u f2o))
                v (ddel (dset row_v (freshKey m) f2o) u),
          face := fc2 }) := by
  have hu_lt : u < freshKey m := lt_freshKey (mentions_halfedge_outer hru)
  have hv_lt : v < freshKey m := lt_freshKey (mentions_halfedge_outer hrv)
  have hwu : ¬ (freshKey m = u) := by omega
  have huw : ¬ (u = freshKey m) := by omega
  have hwv : ¬ (freshKey m = v) := by omega
  have hvw : ¬ (v = freshKey m) := by omega
  have hfc1ex : ∃ fc1, faceSplitUpdate m.face f1o u (freshKey m) v = some fc1 := by
    cases f1o with
    | none => exact ⟨m.face, rfl⟩
    | some f =>
      obtain ⟨r, hr⟩ := Option.isSome_iff_exists.mp (hf1 f rfl)
      exact ⟨_, faceSplitUpdate_some hr _ _ _⟩
  obtain ⟨fc1, hfc1⟩ := hfc1ex
  have hfc2ex : ∃ fc2, faceSplitUpdate fc1 f2o v (freshKey m) u = some fc2 := by
    cases f2o with
    | none => exact ⟨fc1, rfl⟩
    | some f =>
      have hs : (dget fc1 f).isSome = true := by
        rw [faceSplitUpdate_dget_isSome hfc1 f]
        exact hf2 f rfl
      obtain ⟨r, hr⟩ := Option.isSome_iff_exists.mp hs
      exact ⟨_, faceSplitUpdate_some hr _ _ _⟩
  obtain ⟨fc2, hfc2⟩ := hfc2ex
  refine ⟨fc1, fc2, hfc1, hfc2, ?_⟩
  have hb0 : ¬ t ≤ 0 := not_le.mpr ht0
  have hb1 : ¬ (1:ℚ) ≤ t := not_le.mpr ht1
  have hhuv : hget m.halfedge u v = some f1o := by simp [hget, hru, huv]
  have hhvu : hget m.halfedge v u = some f2o := by simp [hget, hrv, hvu]
  simp only [split_edge]
  rw [if_neg hb0, if_neg hb1]
  simp only [hhuv, hhvu]
  rw [if_neg hguard]
  simp only [hau, hav, add_vertex]
  have hg0u : dget (dset m.halfedge (freshKey m) []) u = some row_u := by
    rw [dget_dset, if_neg hwu]; exact hru
  have e1 := hset_eq hg0u (freshKey m) f1o
  have hg1w : dget (dset (dset m.halfedge (freshKey m) []) u
      (dset row_u (freshKey m) f1o)) (freshKey m) = some [] := by
    rw [dget_dset, if_neg huw, dget_dset, if_pos rfl]
  have e2 := hset_eq hg1w v f1o
  have hg2u : dget (dset (dset (dset m.halfedge (freshKey m) []) u
      (dset row_u (freshKey m) f1o)) (freshKey m) (dset [] v f1o)) u
      = some (dset row_u (freshKey m) f1o) := by
    rw [dget_dset, if_neg hwu, dget_dset, if_pos rfl]
  have hr1v : dget (dset row_u (freshKey m) f1o) v = some f1o := by
    rw [dget_dset, if_neg hwv]; exact huv
  have e3 := hdel_eq hg2u hr1v
  have hg3v : dget (dset (dset (dset (dset m.halfedge (freshKey m) []) u
      (dset row_u (freshKey m) f1o)) (freshKey m) (dset [] v f1o)) u
      (ddel (dset row_u (freshKey m) f1o) v)) v = some row_v := by
    rw [dget_dset, if_neg hne, dget_dset, if_neg hwv, dget_dset, if_neg hne,
      dget_dset, if_neg hwv]
    exact hrv
  have e5 := hset_eq hg3v (freshKey m) f2o
  have hg4w : dget (dset (dset (dset (dset (dset m.halfedge (freshKey m) []) u
      (dset row_u (freshKey m) f1o)) (freshKey m) (dset [] v f1o)) u
      (ddel (dset row_u (freshKey m) f1o) v)) v (dset row_v (freshKey m) f2o))
      (freshKey m) = some (dset [] v f1o) := by
    rw [dget_dset, if_neg hvw, dget_dset, if_neg huw, dget_dset, if_pos rfl]
  have e6 := hset_eq hg4w u f2o
  have hg5v : dget (dset (dset (dset (dset (dset (dset m.halfedge (freshKey m) []) u
      (dset row_u (freshKey m) f1o)) (freshKey m) (dset [] v f1o)) u
      (ddel (dset row_u (freshKey m) f1o) v)) v (dset row_v (freshKey m) f2o))
      (freshKey m) (dset (dset [] v f1o) u f2o)) v
      = some (dset row_v (freshKey m) f2o) := by
    rw [dget_dset, if_neg hwv, dget_dset, if_pos rfl]
  have hr2u : dget (dset row_v (freshKey m) f2o) u = some f2o := by
    rw [dget_dset, if_neg hwu]; exact hvu
  have e7 := hdel_eq hg5v hr2u
  simp only [e1, e2, e3, hfc1, e5, e6, e7, hfc2]

/-! ## The claims -/

/-- C10: for every call of `split_edge` that inserts a vertex, the attribute
mapping built for the new vertex has exactly the attribute names present on
vertex `u` — an attribute present only on vertex `v` is silently omitted —
before the x, y, z entries are set to the interpolated position. -/
theorem claim10_split_attr_names_from_u (u_attr v_attr : List (String × AttrVal)) :
    (w_attrOf u_attr v_attr).map Prod.fst = u_attr.map Prod.fst := by
  induction u_attr with
  | nil => rfl
  | cons p rest ih => simp [w_attrOf]

/-- C7 counterexample: with pre-swap bias-adjusted valences (7,7,5,5) the two
errors are not equal (current is 4, flipped is 0), so the claimed tie-and-skip
does not occur. -/
theorem claim7_counterexample :
    ¬ (currentError 7 7 5 5 = flippedError 7 7 5 5 ∧ swapSkips 7 7 5 5 = true) := by
  decide

/-- C7 amended: with pre-swap bias-adjusted valences (7,7,5,5), current_error
is 4 and flipped_error is 0, so current_error strictly exceeds flipped_error
and the swap is performed, not skipped. -/
theorem claim7_amended :
    currentError 7 7 5 5 = 4 ∧ flippedError 7 7 5 5 = 0 ∧
      swapSkips 7 7 5 5 = false := by
  decide

theorem countBefore_mod (k : ℕ) : countBefore k = k % 4 := by
  induction k with
  | zero => rfl
  | succ n ih =>
    have h4 : n % 4 = 0 ∨ n % 4 = 1 ∨ n % 4 = 2 ∨ n % 4 = 3 := by omega
    rcases h4 with h | h | h | h <;>
      simp [countBefore, nextCount, ih, h] <;> omega

/-- C2 counterexample: outer iteration k = 3 (with kmax = 100, its default)
runs none of the split, collapse and swap passes: the counter reaches 4 and
the `else` branch only resets it to 0, so the claimed {1,2,3} round-robin
with exactly one pass per iteration is false. -/
theorem claim2_counterexample :
    passAt 3 = DriverPass.nopass ∧ passAt 3 ≠ DriverPass.split ∧
      passAt 3 ≠ DriverPass.collapse ∧ passAt 3 ≠ DriverPass.swap := by
  decide

/-- C2 amended: the phase counter cycles with period 4, not 3: iteration k
runs the split pass when k % 4 = 0, the collapse pass when k % 4 = 1, the
swap pass when k % 4 = 2, and no pass at all when k % 4 = 3 (that iteration
only resets the counter, and still smooths). -/
theorem claim2_amended (k : ℕ) :
    passAt k = if k % 4 = 0 then DriverPass.split
      else if k % 4 = 1 then DriverPass.collapse
      else if k % 4 = 2 then DriverPass.swap
      else DriverPass.nopass := by
  have hc := countBefore_mod k
  have h4 : k % 4 = 0 ∨ k % 4 = 1 ∨ k % 4 = 2 ∨ k % 4 = 3 := by omega
  rcases h4 with h | h | h | h <;> simp [passAt, passOfCount, hc, h]

/-- C8 counterexample: [0, 1, 1, 2] has exactly 3 distinct vertices (the last
is not equal to the first, so nothing is ignored) yet add_face raises, and
[0, 0, 1] has only 2 distinct vertices yet add_face succeeds: the check
counts the length of the sequence, not its distinct vertices. -/
theorem claim8_counterexample :
    (distinctVertexCount [0, 1, 1, 2] = 3 ∧
      (∃ e, TriMesh.add_face [0, 1, 1, 2] = Except.error e)) ∧
    (distinctVertexCount [0, 0, 1] = 2 ∧
      TriMesh.add_face [0, 0, 1] = Except.ok [0, 0, 1]) := by
  exact ⟨⟨by decide, ⟨_, rfl⟩⟩, ⟨by decide, rfl⟩⟩

/-- C8 amended: `TriMesh.add_face` fails with the mesh topology error exactly
when the vertex sequence, after dropping a last vertex equal to the first,
does not have length exactly 3 (an empty sequence fails with an index error);
distinctness of the vertices is not checked at this level. -/
theorem claim8_amended (l : List ℕ) :
    (∃ e, TriMesh.add_face l = Except.error e) ↔
      (l = [] ∨ (trimFace l).length ≠ 3) := by
  cases l with
  | nil => simp [TriMesh.add_face]
  | cons x xs =>
    simp only [TriMesh.add_face]
    by_cases h : (trimFace (x :: xs)).length = 3
    · simp [h]
    · simp [h]

/-- C5: for every mesh, every edge (u, v) with at least one of the two
half-edge directions bound to the sentinel face, and every t strictly
between 0 and 1, `split_edge(mesh, u, v, t, allow_boundary=False)` returns
None and leaves the mesh completely unchanged. -/
theorem claim5_boundary_split_noop {m : Mesh} {u v : ℕ} {t : ℚ}
    {f1o f2o : Option ℕ}
    (ht0 : 0 < t) (ht1 : t < 1)
    (huv : hget m.halfedge u v = some f1o)
    (hvu : hget m.halfedge v u = some f2o)
    (hb : f1o = none ∨ f2o = none) :
    split_edge m u v t false = Except.ok (none, m) := by
  have hb0 : ¬ t ≤ 0 := not_le.mpr ht0
  have hb1 : ¬ (1:ℚ) ≤ t := not_le.mpr ht1
  simp only [split_edge]
  rw [if_neg hb0, if_neg hb1]
  simp only [huv, hvu]
  rcases hb with rfl | rfl <;> simp

/-- C5 witness: at the boundary edge (1, 2) of the concrete mesh M0, the
split with t = 1/2 is a no-op returning None and the unchanged mesh. -/
theorem claim5_witness :
    split_edge M0 1 2 (1/2) false = Except.ok (none, M0) :=
  claim5_boundary_split_noop (by norm_num) (by norm_num) rfl rfl (Or.inr rfl)

/-- C4: whenever `split_edge` performs the split on an adjacent pair (u, v),
the new vertex w is the fresh key; the half-edges (u, w) and (w, v) are
bound to the face previously bound to (u, v), and (v, w) and (w, u) to the
face previously bound to (v, u); the directed entries (u, v) and (v, u) no
longer exist; in each adjacent non-sentinel face the cycle step u to v
(resp. v to u) is replaced by u to w to v (resp. v to w to u); and the
degree of w is exactly 2. -/
theorem claim4_split_rewiring {m : Mesh} {u v : ℕ} {t : ℚ} {ab : Bool}
    {f1o f2o : Option ℕ} {row_u row_v : HalfedgeRow} {u_attr v_attr : Attrs}
    (ht0 : 0 < t) (ht1 : t < 1)
    (hru : dget m.halfedge u = some row_u)
    (hrv : dget m.halfedge v = some row_v)
    (huv : dget row_u v = some f1o)
    (hvu : dget row_v u = some f2o)
    (hguard : ¬ (ab = false ∧ (f1o = none ∨ f2o = none)))
    (hau : dget m.vertex u = some u_attr)
    (hav : dget m.vertex v = some v_attr)
    (hne : ¬ (u = v))
    (hf1 : ∀ f, f1o = some f → (dget m.face f).isSome = true)
    (hf2 : ∀ f, f2o = some f → (dget m.face f).isSome = true)
    (hff : ∀ f g, f1o = some f → f2o = some g → ¬ (f = g)) :
    ∃ m' : Mesh, split_edge m u v t ab = Except.ok (some (freshKey m), m') ∧
      hget m'.halfedge u (freshKey m) = some f1o ∧
      hget m'.halfedge (freshKey m) v = some f1o ∧
      hget m'.halfedge v (freshKey m) = some f2o ∧
      hget m'.halfedge (freshKey m) u = some f2o ∧
      hget m'.halfedge u v = none ∧
      hget m'.halfedge v u = none ∧
      (∀ f, f1o = some f → ∃ r, dget m'.face f = some r ∧
        dget r u = some (freshKey m) ∧ dget r (freshKey m) = some v) ∧
      (∀ f, f2o = some f → ∃ r, dget m'.face f = some r ∧
        dget r v = some (freshKey m) ∧ dget r (freshKey m) = some u) ∧
      vertex_degree m' (freshKey m) = 2 := by
  obtain ⟨fc1, fc2, hfc1, hfc2, heq⟩ :=
    split_edge_run ht0 ht1 hru hrv huv hvu hguard hau hav hne hf1 hf2
  have hu_lt : u < freshKey m := lt_freshKey (mentions_halfedge_outer hru)
  have hv_lt : v < freshKey m := lt_freshKey (mentions_halfedge_outer hrv)
  have hwu : ¬ (freshKey m = u) := by omega
  have huw : ¬ (u = freshKey m) := by omega
  have hwv : ¬ (freshKey m = v) := by omega
  have hvw : ¬ (v = freshKey m) := by omega
  have hvu_ne : ¬ (v = u) := fun e => hne e.symm
  refine ⟨_, heq, ?_, ?_, ?_, ?_, ?_, ?_, ?_, ?_, ?_⟩
  · simp [hget, dget_dset, dget_ddel, hwu, huw, hwv, hvw, hne, hvu_ne]
  · simp [hget, dget_dset, dget_ddel, hwu, huw, hwv, hvw, hne, hvu_ne]
  · simp [hget, dget_dset, dget_ddel, hwu, huw, hwv, hvw, hne, hvu_ne]
  · simp [hget, dget_dset, dget_ddel, hwu, huw, hwv, hvw, hne, hvu_ne]
  · simp [hget, dget_dset, dget_ddel, hwu, huw, hwv, hvw, hne, hvu_ne]
  · simp [hget, dget_dset, dget_ddel, hwu, huw, hwv, hvw, hne, hvu_ne]
  · intro f hf
    subst hf
    simp only [faceSplitUpdate, Option.map_eq_some'] at hfc1
    obtain ⟨r1, hr1, hfc1e⟩ := hfc1
    have hfget1 : dget fc2 f = some (dset (dset r1 u (freshKey m)) (freshKey m) v) := by
      cases h2o : f2o with
      | none =>
        rw [h2o] at hfc2
        simp only [faceSplitUpdate] at hfc2
        cases hfc2
        rw [← hfc1e, dget_dset, if_pos rfl]
      | some g =>
        rw [h2o] at hfc2
        have hfg : ¬ (f = g) := hff f g rfl h2o
        simp only [faceSplitUpdate, Option.map_eq_some'] at hfc2
        obtain ⟨r2, hr2, hfc2e⟩ := hfc2
        rw [← hfc2e, dget_dset, if_neg (fun e => hfg e.symm), ← hfc1e,
          dget_dset, if_pos rfl]
    refine ⟨_, hfget1, ?_, ?_⟩
    · rw [dget_dset, if_neg hwu, dget_dset, if_pos rfl]
    · rw [dget_dset, if_pos rfl]
  · intro f hf
    subst hf
    have hfget2 : ∃ r2, dget fc1 f = some r2 ∧
        dget fc2 f = some (dset (dset r2 v (freshKey m)) (freshKey m) u) := by
      simp only [faceSplitUpdate, Option.map_eq_some'] at hfc2
      obtain ⟨r2, hr2, hfc2e⟩ := hfc2
      exact ⟨r2, hr2, by rw [← hfc2e, dget_dset, if_pos rfl]⟩
    obtain ⟨r2, hr2, hfget2⟩ := hfget2
    refine ⟨_, hfget2, ?_, ?_⟩
    · rw [dget_dset, if_neg hwv, dget_dset, if_pos rfl]
    · rw [dget_dset, if_pos rfl]
  · simp only [vertex_degree, dget_dset, dget_ddel, if_neg hvw, if_pos rfl]
    simp [dset, hvu_ne, List.dedup_cons_of_not_mem, hne]

/-- C4 witness: the interior edge (0, 1) of M0 split at t = 1/2. -/
theorem claim4_witness :
    ∃ m' : Mesh, split_edge M0 0 1 (1/2) false = Except.ok (some (freshKey M0), m') ∧
      hget m'.halfedge 0 (freshKey M0) = some (some 0) ∧
      hget m'.halfedge (freshKey M0) 1 = some (some 0) ∧
      hget m'.halfedge 1 (freshKey M0) = some (some 1) ∧
      hget m'.halfedge (freshKey M0) 0 = some (some 1) ∧
      hget m'.halfedge 0 1 = none ∧
      hget m'.halfedge 1 0 = none ∧
      (∀ f, (some 0 : Option ℕ) = some f → ∃ r, dget m'.face f = some r ∧
        dget r 0 = some (freshKey M0) ∧ dget r (freshKey M0) = some 1) ∧
      (∀ f, (some 1 : Option ℕ) = some f → ∃ r, dget m'.face f = some r ∧
        dget r 1 = some (freshKey M0) ∧ dget r (freshKey M0) = some 0) ∧
      vertex_degree m' (freshKey M0) = 2 :=
  claim4_split_rewiring (by norm_num) (by norm_num) rfl rfl rfl rfl
    (by simp) rfl rfl (by decide)
    (fun f hf => by cases hf; rfl)
    (fun f hf => by cases hf; rfl)
    (fun f g hf hg => by cases hf; cases hg; decide)

/-- C3 counterexample: on the all-triangle mesh M0, `split_edge` on the
interior edge (0, 1) succeeds and leaves both adjacent faces with 4 vertices
in their cycle dicts, so the claim that every face still has exactly 3
vertices after a successful split is false. -/
theorem claim3_counterexample :
    (M0.face.map (fun p => p.2.length) = [3, 3]) ∧
    Except.map (fun r => r.2.face.map (fun p => (p.1, p.2.length)))
      (split_edge M0 0 1 (1/2) false) = Except.ok [(0, 4), (1, 4)] := by
  constructor
  · rfl
  · have h0 : ¬ ((1:ℚ)/2 ≤ 0) := by norm_num
    have h1 : ¬ ((1:ℚ) ≤ 1/2) := by norm_num
    simp only [split_edge, if_neg h0, if_neg h1]
    rfl

/-- C3 amended: on a triangle mesh in which every face has exactly 3
vertices, after `split_edge` succeeds on an interior edge (u, v) with two
distinct adjacent faces, the two faces adjacent to the edge have exactly 4
vertices each (the generic operator inserts w into their cycles without
re-triangulating), and every other face still has exactly 3. -/
theorem claim3_amended {m : Mesh} {u v : ℕ} {t : ℚ} {ab : Bool}
    {f1 f2 : ℕ} {row_u row_v : HalfedgeRow} {u_attr v_attr : Attrs}
    {rf1 rf2 : FaceRow}
    (ht0 : 0 < t) (ht1 : t < 1)
    (hru : dget m.halfedge u = some row_u)
    (hrv : dget m.halfedge v = some row_v)
    (huv : dget row_u v = some (some f1))
    (hvu : dget row_v u = some (some f2))
    (hau : dget m.vertex u = some u_attr)
    (hav : dget m.vertex v = some v_attr)
    (hne : ¬ (u = v))
    (hff : ¬ (f1 = f2))
    (hrf1 : dget m.face f1 = some rf1)
    (hrf2 : dget m.face f2 = some rf2)
    (hu1 : (dget rf1 u).isSome = true)
    (hv2 : (dget rf2 v).isSome = true)
    (htri : ∀ f r, dget m.face f = some r → r.length = 3) :
    ∃ m' : Mesh, split_edge m u v t ab = Except.ok (some (freshKey m), m') ∧
      (∀ r, dget m'.face f1 = some r → r.length = 4) ∧
      (∀ r, dget m'.face f2 = some r → r.length = 4) ∧
      (∀ f r, ¬ (f = f1) → ¬ (f = f2) → dget m'.face f = some r → r.length = 3) := by
  have hguard :
      ¬ (ab = false ∧ ((some f1 : Option ℕ) = none ∨ (some f2 : Option ℕ) = none)) := by
    simp
  have hf1' : ∀ f, (some f1 : Option ℕ) = some f → (dget m.face f).isSome = true := by
    intro f hf
    cases hf
    simp [hrf1]
  have hf2' : ∀ f, (some f2 : Option ℕ) = some f → (dget m.face f).isSome = true := by
    intro f hf
    cases hf
    simp [hrf2]
  obtain ⟨fc1, fc2, hfc1, hfc2, heq⟩ :=
    split_edge_run ht0 ht1 hru hrv huv hvu hguard hau hav hne hf1' hf2'
  have hu_lt : u < freshKey m := lt_freshKey (mentions_halfedge_outer hru)
  have hv_lt : v < freshKey m := lt_freshKey (mentions_halfedge_outer hrv)
  have huw : ¬ (u = freshKey m) := by omega
  have hvw : ¬ (v = freshKey m) := by omega
  have hfc1e : fc1 = dset m.face f1 (dset (dset rf1 u (freshKey m)) (freshKey m) v) := by
    rw [faceSplitUpdate_some hrf1] at hfc1
    exact (Option.some.inj hfc1).symm
  have hrf2' : dget fc1 f2 = some rf2 := by
    rw [hfc1e, dget_dset, if_neg hff]
    exact hrf2
  have hfc2e : fc2 = dset fc1 f2 (dset (dset rf2 v (freshKey m)) (freshKey m) u) := by
    rw [faceSplitUpdate_some hrf2'] at hfc2
    exact (Option.some.inj hfc2).symm
  have hw1 : dget rf1 (freshKey m) = none := by
    cases hq : dget rf1 (freshKey m) with
    | none => rfl
    | some y =>
      have := lt_freshKey (mentions_face hrf1 hq).1
      omega
  have hw2 : dget rf2 (freshKey m) = none := by
    cases hq : dget rf2 (freshKey m) with
    | none => rfl
    | some y =>
      have := lt_freshKey (mentions_face hrf2 hq).1
      omega
  refine ⟨_, heq, ?_, ?_, ?_⟩
  · intro r hr
    rw [hfc2e, dget_dset, if_neg (fun e => hff e.symm), hfc1e, dget_dset,
      if_pos rfl] at hr
    cases hr
    rw [length_dset, dget_dset, if_neg huw, hw1]
    simp [length_dset, hu1, htri f1 rf1 hrf1]
  · intro r hr
    rw [hfc2e, dget_dset, if_pos rfl] at hr
    cases hr
    rw [length_dset, dget_dset, if_neg hvw, hw2]
    simp [length_dset, hv2, htri f2 rf2 hrf2]
  · intro f r hne1 hne2 hr
    rw [hfc2e, dget_dset, if_neg (fun e => hne2 e.symm), hfc1e, dget_dset,
      if_neg (fun e => hne1 e.symm)] at hr
    exact htri f r hr

/-- C3 amended witness: the interior edge (0, 1) of the all-triangle mesh M0,
split at t = 1/2. -/
theorem claim3_amended_witness :
    ∃ m' : Mesh, split_edge M0 0 1 (1/2) false = Except.ok (some (freshKey M0), m') ∧
      (∀ r, dget m'.face 0 = some r → r.length = 4) ∧
      (∀ r, dget m'.face 1 = some r → r.length = 4) ∧
      (∀ f r, ¬ (f = 0) → ¬ (f = 1) → dget m'.face f = some r → r.length = 3) :=
  claim3_amended (by norm_num) (by norm_num) rfl rfl rfl rfl rfl rfl
    (by decide) (by decide) rfl rfl rfl rfl
    (by
      intro f r h
      simp only [M0, dget] at h
      split_ifs at h with h1 h2
      · cases h
        rfl
      · cases h
        rfl)

theorem flippedError_eq_specDeviation (a b c d : ℤ) :
    flippedError a b c d = specDeviation (a - 1) (b - 1) (c + 1) (d + 1) := by
  simp only [flippedError, specDeviation]
  rw [show a - 1 - 6 = a - 7 from by ring, show b - 1 - 6 = b - 7 from by ring,
    show c + 1 - 6 = c - 5 from by ring, show d + 1 - 6 = d - 5 from by ring]

theorem currentError_eq_specDeviation (a b c d : ℤ) :
    currentError a b c d = specDeviation a b c d := rfl

/-- C1: in the swap pass, an edge (u, v) not touching a visited vertex whose
two half-edges are bound to real (non-sentinel) faces, with opposite
vertices v1 = face[f1][v] and v2 = face[f2][u], is swapped if and only if
the total absolute deviation from valence 6 of the bias-adjusted valences
(+2 on the boundary) of u, v, v1, v2 strictly exceeds the same total for the
post-swap configuration (u and v one lower, v1 and v2 one higher); on a tie
or an increase the edge is left unswapped and the state is unchanged. -/
theorem claim1_swap_condition {boundary : List ℕ}
    {swapOp : Mesh → ℕ → ℕ → Mesh} {st : SwapState} {u v f1 f2 v1 v2 : ℕ}
    (hnv : ¬ (u ∈ st.visited ∨ v ∈ st.visited))
    (huv : hget st.mesh.halfedge u v = some (some f1))
    (hvu : hget st.mesh.halfedge v u = some (some f2))
    (hv1 : fget st.mesh.face f1 v = some v1)
    (hv2 : fget st.mesh.face f2 u = some v2) :
    swapStep boundary swapOp st (u, v) =
      Except.ok
        (if specDeviation (biasedValency boundary st.mesh u - 1)
              (biasedValency boundary st.mesh v - 1)
              (biasedValency boundary st.mesh v1 + 1)
              (biasedValency boundary st.mesh v2 + 1) <
            specDeviation (biasedValency boundary st.mesh u)
              (biasedValency boundary st.mesh v)
              (biasedValency boundary st.mesh v1)
              (biasedValency boundary st.mesh v2)
        then { visited := u :: v :: st.visited,
               mesh := swapOp st.mesh u v,
               swapped := st.swapped ++ [(u, v)] }
        else st) := by
  simp only [swapStep]
  rw [if_neg hnv]
  simp only [huv, hvu, hv1, hv2]
  by_cases hc : currentError (biasedValency boundary st.mesh u)
      (biasedValency boundary st.mesh v) (biasedValency boundary st.mesh v1)
      (biasedValency boundary st.mesh v2) ≤
    flippedError (biasedValency boundary st.mesh u)
      (biasedValency boundary st.mesh v) (biasedValency boundary st.mesh v1)
      (biasedValency boundary st.mesh v2)
  · rw [if_pos hc, if_neg]
    rw [← flippedError_eq_specDeviation, ← currentError_eq_specDeviation]
    exact not_lt.mpr hc
  · rw [if_neg hc, if_pos]
    rw [← flippedError_eq_specDeviation, ← currentError_eq_specDeviation]
    exact not_le.mp hc

/-- C1 witness: the interior edge (0, 1) of M0 with all four vertices on the
boundary; the bias-adjusted valences are (5, 5, 4, 4), both errors are 6,
and the tie leaves the state unchanged. -/
theorem claim1_witness :
    swapStep [0, 1, 2, 3] (fun m _ _ => m) ⟨[], M0, []⟩ (0, 1) =
      Except.ok ⟨[], M0, []⟩ := by
  have h := @claim1_swap_condition [0, 1, 2, 3] (fun m _ _ => m)
    ⟨[], M0, []⟩ 0 1 0 1 2 3 (by simp) rfl rfl rfl rfl
  rw [h]
  rfl

/-- C6 counterexample: a split pass over the edges [(0,1), (2,3)] in which
the operator raises on (0,1) aborts with that error instead of skipping the
edge and continuing: the driver has no try/except, although the operator
would succeed on the remaining edge (2,3). -/
theorem claim6_counterexample :
    splitPass failingOp bigLen 1 ⟨[], M0⟩ [(0, 1), (2, 3)] =
      Except.error "TopologyError" ∧
    failingOp M0 2 3 = Except.ok M0 := by
  constructor
  · have h : ¬ ((10:ℚ) ≤ 1) := by norm_num
    simp only [splitPass, splitPassStep, bigLen, failingOp]
    rw [if_neg (by simp), if_neg h]
    simp
  · simp [failingOp]

/-- C6 amended: the driver has no error handling: when the operator raises
on an edge the pass reaches, the error propagates out of the pass
immediately, the remaining edges are not processed, and the remeshing run
aborts. -/
theorem claim6_amended (op : Mesh → ℕ → ℕ → Except String Mesh)
    (lengthOf : Mesh → ℕ → ℕ → ℚ) (lmaxd : ℚ) (st : PassState)
    (u v : ℕ) (rest : List (ℕ × ℕ)) (msg : String)
    (h1 : ¬ (u ∈ st.visited ∨ v ∈ st.visited))
    (h2 : ¬ (lengthOf st.mesh u v ≤ lmaxd))
    (h3 : op st.mesh u v = Except.error msg) :
    splitPass op lengthOf lmaxd st ((u, v) :: rest) = Except.error msg := by
  simp only [splitPass, splitPassStep]
  rw [if_neg h1, if_neg h2, h3]

/-- C6 amended witness: an always-raising operator on the first edge of a
two-edge pass aborts the pass with its error. -/
theorem claim6_amended_witness :
    splitPass alwaysFailOp bigLen 1 ⟨[], M0⟩ [(5, 6), (7, 8)] =
      Except.error "TopologyError" :=
  claim6_amended alwaysFailOp bigLen 1 ⟨[], M0⟩ 5 6 [(7, 8)] "TopologyError"
    (by simp) (by norm_num [bigLen]) rfl

/-- C9 counterexample: with one edge of length 2, target 1, caller-supplied
target_start 5, tol 0, kmax_start 10 and k = 0, optimise_trimesh_topology
computes the band (8/5, 8/3) from fac = 2 (the maximum edge length), while
the claim's formula with the caller-supplied target_start gives (4, 20/3). -/
theorem claim9_counterexample :
    optimise_band [2] 1 5 0 10 0 = some (8/5, 8/3) ∧
    claim_band 1 5 0 10 0 = (4, 20/3) ∧
    ¬ (((8:ℚ)/5, (8:ℚ)/3) = ((4:ℚ), (20:ℚ)/3)) := by
  refine ⟨?_, ?_, ?_⟩
  · norm_num [optimise_band, claim_band, remesh_lmin, remesh_lmax, pyMax]
  · norm_num [claim_band, remesh_lmin, remesh_lmax]
  · norm_num [Prod.ext_iff]

/-- C9 amended: the band formula of the claim holds as stated for the brg
`remesh` driver, whose fac uses the caller-supplied target_start; in the
compas `optimise_trimesh_topology` driver the caller-supplied target_start
is ignored and fac instead uses the maximum current edge length. -/
theorem claim9_amended :
    (∀ (target ts tol ks : ℚ) (k : ℕ),
        remesh_band target ts tol ks k = claim_band target ts tol ks k) ∧
    (∀ (l : List ℚ) (target ts tol ks m : ℚ) (k : ℕ),
        pyMax l = some m →
        optimise_band l target ts tol ks k = some (claim_band target m tol ks k)) := by
  constructor
  · intro target ts tol ks k
    simp only [remesh_band, claim_band]
    split_ifs with h
    · simp only [Prod.ext_iff]
      constructor <;> ring
    · rfl
  · intro l target ts tol ks m k hm
    simp only [optimise_band, hm, claim_band]
    split_ifs with h
    · simp only [Option.some.injEq, Prod.ext_iff]
      constructor <;> ring
    · rfl

/-- C9 amended witness: both band computations at concrete inputs. -/
theorem claim9_amended_witness :
    remesh_band 1 5 0 10 0 = claim_band 1 5 0 10 0 ∧
    optimise_band [2] 1 5 0 10 0 = some (claim_band 1 2 0 10 0) :=
  ⟨claim9_amended.1 1 5 0 10 0, claim9_amended.2 [2] 1 5 0 10 2 0 rfl⟩
